import Mathlib

/-!
Verification of the expense-bot extraction/parsing engine.

The Python sources (`expense_bot/parser.py`, `expense_bot/ocr.py`, and the
per-person line of `expense_bot/service.py`) are shallowly embedded here.

Modelling conventions:

* A Python `str` is a list of Unicode code points (`PyStr := List Nat`).
  Character predicates (`isdigit`, `isalpha`, `isalnum`, whitespace,
  `lower`, `upper`, `title`) are modelled by their ASCII behaviour.
* Python `float` values reachable in this code are exact decimals
  (they come from decimal digit strings), so they are modelled exactly
  as `mantissa * 10 ^ exponent` together with the special values
  `nan`/`inf`; `round()` is round-half-to-even, and `round()` of
  `nan`/`inf` raises, which is modelled by `Except.error`.
  Float comparisons against the literals `0.45` and `0.4` are modelled
  by the exact rational comparison (cross multiplication); the two agree
  on every ratio of small integers that can occur (the binary value of
  the literal differs from the decimal one by less than 2^-53, while the
  ratios are quotients of integers bounded by the text length).
* Functions that can (transitively) raise are modelled in `Except Unit`;
  `.error ()` is an uncaught Python exception.
* The regular expressions are executed by a small backtracking engine
  (`reM`) with ordered alternation and greedy quantifiers, matching the
  leftmost-first semantics of Python's `re` module.  Python's `$` also
  matches before a final newline; the strings these patterns are applied
  to never contain a newline (whitespace is collapsed first), so `$` is
  modelled as end-of-string.
-/

namespace ExpenseBot

/-! ## Python string model -/

abbrev PyStr := List Nat

def pystr (s : String) : PyStr := s.data.map Char.toNat

def isDigitC (c : Nat) : Bool := 48 ≤ c && c ≤ 57
def isUpperC (c : Nat) : Bool := 65 ≤ c && c ≤ 90
def isLowerC (c : Nat) : Bool := 97 ≤ c && c ≤ 122
def isAlphaC (c : Nat) : Bool := isUpperC c || isLowerC c
def isAlnumC (c : Nat) : Bool := isAlphaC c || isDigitC c
def isSpaceC (c : Nat) : Bool := c == 32 || c == 9 || c == 10 || c == 13 || c == 11 || c == 12
def isWordC (c : Nat) : Bool := isAlnumC c || c == 95
def toLowerC (c : Nat) : Nat := if isUpperC c then c + 32 else c
def toUpperC (c : Nat) : Nat := if isLowerC c then c - 32 else c

def lowerStr (s : PyStr) : PyStr := s.map toLowerC

def upperStr (s : PyStr) : PyStr := s.map toUpperC

/-- Python `str.strip()` (whitespace on both ends). -/
def stripList (s : PyStr) : PyStr :=
  ((s.dropWhile isSpaceC).reverse.dropWhile isSpaceC).reverse

/-- Python `str.strip(chars)` for an explicit character set. -/
def stripSet (cs : List Nat) (s : PyStr) : PyStr :=
  ((s.dropWhile (fun c => cs.contains c)).reverse.dropWhile (fun c => cs.contains c)).reverse

/-- Python `re.sub(r"\s+", " ", s)`: every maximal whitespace run becomes
one space.  The boolean is "the previous character was whitespace". -/
def collapseWSAux : Bool → PyStr → PyStr
  | _, [] => []
  | inWS, c :: rest =>
    if isSpaceC c then
      if inWS then collapseWSAux true rest
      else 32 :: collapseWSAux true rest
    else c :: collapseWSAux false rest

def collapseWS (s : PyStr) : PyStr := collapseWSAux false s

/-- Python `pat in s` (substring containment). -/
def containsSub (s pat : PyStr) : Bool :=
  (List.range (s.length + 1)).any (fun i => pat.isPrefixOf (s.drop i))

/-- Python `s.find(pat)` restricted to the uses where the result is used
only when the pattern occurs (returns the first match position). -/
def pyFind (s pat : PyStr) : Option Nat :=
  (List.range (s.length + 1)).find? (fun i => pat.isPrefixOf (s.drop i))

/-- Python `s.replace(pat, "")` (left-to-right non-overlapping removal).
The fuel argument (the string length suffices) makes the recursion
structural so that the kernel can evaluate it.  An empty pattern removes
nothing here; the only patterns used are non-empty. -/
def deleteSubAux (pat : PyStr) : Nat → PyStr → PyStr
  | _, [] => []
  | 0, s => s
  | fuel + 1, c :: rest =>
    if pat ≠ [] ∧ pat.isPrefixOf (c :: rest) then
      deleteSubAux pat fuel ((c :: rest).drop pat.length)
    else
      c :: deleteSubAux pat fuel rest

def deleteSub (pat s : PyStr) : PyStr := deleteSubAux pat s.length s

/-- Python `s.split(sep)` for a single-character separator. -/
def splitOnC (sep : Nat) : PyStr → List PyStr
  | [] => [[]]
  | c :: rest =>
    if c == sep then [] :: splitOnC sep rest
    else
      match splitOnC sep rest with
      | [] => [[c]]
      | g :: gs => (c :: g) :: gs

/-- Python `str.splitlines()` (the terminators occurring in practice). -/
def splitLines : PyStr → List PyStr
  | [] => []
  | 13 :: 10 :: rest => [] :: splitLines rest
  | 13 :: rest => [] :: splitLines rest
  | 10 :: rest => [] :: splitLines rest
  | c :: rest =>
    match splitLines rest with
    | [] => [[c]]
    | g :: gs => (c :: g) :: gs

/-- Python `sep.join(parts)` for a single-character separator. -/
def joinWith (sep : Nat) : List PyStr → PyStr
  | [] => []
  | [l] => l
  | l :: ls => l ++ sep :: joinWith sep ls

/-- Python `int(s)` on a non-empty string of ASCII digits. -/
def digitsToNat (s : PyStr) : Nat := s.foldl (fun a c => a * 10 + (c - 48)) 0

/-- Python `str.title()`: a cased character starts a word (uppercased) iff
the previous character is not cased; other cased characters are lowercased. -/
def pyTitleAux : Bool → PyStr → PyStr
  | _, [] => []
  | prevAlpha, c :: rest =>
    (if isAlphaC c then (if prevAlpha then toLowerC c else toUpperC c) else c) ::
      pyTitleAux (isAlphaC c) rest

def pyTitle (s : PyStr) : PyStr := pyTitleAux false s

/-- Python `str.capitalize()`: first character uppercased, rest lowercased. -/
def pyCapitalize : PyStr → PyStr
  | [] => []
  | c :: rest => toUpperC c :: rest.map toLowerC

/-! ## Python float model

Every float reachable in this program is parsed from a decimal digit
string, so finite values are represented exactly as `m * 10 ^ e`. -/

inductive PyFloat where
  | nan
  | inf (neg : Bool)
  | val (m : Int) (e : Int)

def spanDigits (s : PyStr) : PyStr × PyStr := (s.takeWhile isDigitC, s.dropWhile isDigitC)

/-- The exponent suffix of a float literal: empty, or `[eE][+-]?digits`. -/
def parseExponent (s : PyStr) : Option Int :=
  match s with
  | [] => some 0
  | c :: rest =>
    if c == 101 || c == 69 then
      let sd : Int × PyStr :=
        match rest with
        | 43 :: r2 => (1, r2)
        | 45 :: r2 => (-1, r2)
        | _ => (1, rest)
      let dd := spanDigits sd.2
      if dd.1 ≠ [] ∧ dd.2 = [] then some (sd.1 * (digitsToNat dd.1 : Int)) else none
    else none

/-- The fractional part of a float literal: a leading dot followed by
digits (possibly none), else nothing. -/
def fracPart : PyStr → PyStr × PyStr
  | 46 :: rr => spanDigits rr
  | r => ([], r)

/-- The digits of a float literal: `d+ [. d*]` or `. d+`, then an optional
exponent.  Returns mantissa and decimal exponent. -/
def parseDecimal (s : PyStr) : Option (Int × Int) :=
  if (spanDigits s).1 = [] ∧ (fracPart ((spanDigits s).2)).1 = [] then none
  else
    match parseExponent ((fracPart ((spanDigits s).2)).2) with
    | none => none
    | some ex =>
      some ((digitsToNat ((spanDigits s).1 ++ (fracPart ((spanDigits s).2)).1) : Int),
        ex - ((fracPart ((spanDigits s).2)).1.length : Int))

/-- The optional sign of a float literal. -/
def floatSign (t : PyStr) : Bool × PyStr :=
  match t with
  | [] => (false, t)
  | c :: rest => if c = 43 then (false, rest) else if c = 45 then (true, rest) else (false, t)

/-- Python `float(s)`: optional sign, then `nan`, `inf`/`infinity`, or a
decimal literal (case-insensitive).  Digit-group underscores are not
modelled (no such token is produced by the patterns in this program). -/
def pyFloatOfString (s : PyStr) : Option PyFloat :=
  if lowerStr (floatSign (stripList s)).2 = pystr ("nan") then some PyFloat.nan
  else if lowerStr (floatSign (stripList s)).2 = pystr ("inf") ∨
      lowerStr (floatSign (stripList s)).2 = pystr ("infinity") then
    some (PyFloat.inf (floatSign (stripList s)).1)
  else
    match parseDecimal ((floatSign (stripList s)).2) with
    | none => none
    | some me =>
      some (PyFloat.val (if (floatSign (stripList s)).1 then -me.1 else me.1) me.2)

/-- Round-half-to-even of `m / d` for `d > 0`, integer arithmetic only. -/
def roundHalfEvenInt (m d : Int) : Int :=
  let q := Int.ediv m d
  let r := m - q * d
  if 2 * r < d then q
  else if d < 2 * r then q + 1
  else if q % 2 = 0 then q else q + 1

/-- Multiply a Python float by `10 ^ k` (exact for our decimal values). -/
def pyFloatScale (f : PyFloat) (k : Nat) : PyFloat :=
  match f with
  | .nan => .nan
  | .inf b => .inf b
  | .val m e => .val m (e + k)

/-- Python `int(round(x))`: raises (`.error`) on `nan`/`inf`. -/
def pyRoundToInt (f : PyFloat) : Except Unit Int :=
  match f with
  | .val m e =>
    if 0 ≤ e then .ok (m * (10 ^ e.toNat))
    else .ok (roundHalfEvenInt m (10 ^ (-e).toNat))
  | _ => .error ()

/-! ## parser.py: parse_amount_token -/

/-- The magnitude suffixes, in the order the Python loop tries them. -/
def moneySuffixes : List PyStr :=
  [pystr ("ribu"), pystr ("rb"), pystr ("k"), pystr ("juta"), pystr ("jt")]

/-- The suffix-detection loop of `parse_amount_token`: first suffix (in
order) that the token ends with, and the token with it removed. -/
def trimSuffix (s : PyStr) : PyStr × PyStr :=
  match moneySuffixes.find? (fun suf => suf.isSuffixOf s) with
  | some suf => (suf, s.take (s.length - suf.length))
  | none => ([], s)

/-- The cleaned token of `parse_amount_token`: strip, lower, remove `rp`
and `idr`, remove spaces. -/
def amountCleaned (token : PyStr) : PyStr :=
  (deleteSub (pystr ("idr")) (deleteSub (pystr ("rp")) (lowerStr (stripList token)))).filter
    (fun c => !(c == 32))

/-- The suffix multiplication of `parse_amount_token`: `* 1000` for
`rb`/`ribu`/`k`, `* 1000000` for `jt`/`juta`. -/
def amountScale (suffix : PyStr) (f : PyFloat) : PyFloat :=
  if suffix = pystr ("rb") ∨ suffix = pystr ("ribu") ∨ suffix = pystr ("k") then
    pyFloatScale f 3
  else if suffix = pystr ("jt") ∨ suffix = pystr ("juta") then pyFloatScale f 6
  else f

/-- parser.py `parse_amount_token`.  `.ok none` is Python `None`, `.error ()`
is an uncaught exception (`round` of `nan`/`inf`). -/
def parse_amount_token (token : PyStr) : Except Unit (Option Int) :=
  if amountCleaned token = [] then .ok none
  else if (trimSuffix (amountCleaned token)).2 = [] then .ok none
  else if (trimSuffix (amountCleaned token)).1 = [] then
    if (trimSuffix (amountCleaned token)).2.filter isDigitC = [] then .ok none
    else .ok (some ((digitsToNat ((trimSuffix (amountCleaned token)).2.filter isDigitC) : Int)))
  else
    match pyFloatOfString ((trimSuffix (amountCleaned token)).2.map
        (fun c => if c == 44 then 46 else c)) with
    | none => .ok none
    | some f =>
      match pyRoundToInt (amountScale (trimSuffix (amountCleaned token)).1 f) with
      | .error e => .error e
      | .ok n => .ok (some n)

/-! ## Regular-expression engine

A small backtracking matcher with ordered alternation and greedy
quantifiers, the semantics of Python's `re` module.  All patterns in the
program carry `(?i)` or are caseless, so literals compare
case-insensitively.  At most one capturing group is ever used
(`group(1)`), so the match state carries one optional capture span. -/

abbrev Cap := Option (Nat × Nat)

inductive RE where
  | eps
  | cls (p : Nat → Bool)
  | lit (cs : PyStr)
  | seq (a b : RE)
  | alt (a b : RE)
  | opt (a : RE)
  | star (a : RE)
  | wb
  | eos
  | negAhead (a : RE)
  | grp (a : RE)

/-- Case-insensitive literal prefix match. -/
def litMatch : PyStr → PyStr → Bool
  | [], _ => true
  | _ :: _, [] => false
  | c :: cr, d :: dr => (toLowerC c == toLowerC d) && litMatch cr dr

def wordAt (s : PyStr) (i : Nat) : Bool :=
  match s.get? i with
  | some c => isWordC c
  | none => false

def wordBoundary (s : PyStr) (i : Nat) : Bool :=
  (if i = 0 then false else wordAt s (i - 1)) != wordAt s i

/-- Greedy iteration of a sub-matcher `mA`, at most `n` times, longest
first, stopping (like Python) on an iteration that consumes nothing.
Every starred sub-pattern in this program consumes at least one
character per iteration, so a budget of the remaining string length is
exact. -/
def starLoop (mA : Nat → Cap → (Nat → Cap → Option (Nat × Cap)) → Option (Nat × Cap)) :
    Nat → Nat → Cap → (Nat → Cap → Option (Nat × Cap)) → Option (Nat × Cap)
  | 0, i, cp, k => k i cp
  | n + 1, i, cp, k =>
    match mA i cp (fun j cp2 => if i < j then starLoop mA n j cp2 k else none) with
    | some r => some r
    | none => k i cp

/-- The matcher, in continuation-passing style: `reM s re i cp k` tries
to match `re` at position `i` of `s` and hands every candidate end
position to `k`, backtracking on failure.  Ordered alternation and
greedy `opt`/`star` give exactly the first match Python's backtracking
engine would find. -/
def reM (s : PyStr) : RE → Nat → Cap → (Nat → Cap → Option (Nat × Cap)) → Option (Nat × Cap)
  | .eps, i, cp, k => k i cp
  | .cls p, i, cp, k =>
    match s.get? i with
    | some c => if p c then k (i + 1) cp else none
    | none => none
  | .lit cs, i, cp, k => if litMatch cs (s.drop i) then k (i + cs.length) cp else none
  | .seq a b, i, cp, k => reM s a i cp (fun j cp2 => reM s b j cp2 k)
  | .alt a b, i, cp, k =>
    match reM s a i cp k with
    | some r => some r
    | none => reM s b i cp k
  | .opt a, i, cp, k =>
    match reM s a i cp k with
    | some r => some r
    | none => k i cp
  | .star a, i, cp, k => starLoop (reM s a) (s.length + 1 - i) i cp k
  | .wb, i, cp, k => if wordBoundary s i then k i cp else none
  | .eos, i, cp, k => if i = s.length then k i cp else none
  | .negAhead a, i, cp, k =>
    match reM s a i cp (fun j cp2 => some (j, cp2)) with
    | some _ => none
    | none => k i cp
  | .grp a, i, cp, k => reM s a i cp (fun j _ => k j (some (i, j)))

/-- Attempt a match anchored at position `i`; returns end position and capture. -/
def reMatchAt (re : RE) (s : PyStr) (i : Nat) : Option (Nat × Cap) :=
  reM s re i none (fun j cp => some (j, cp))

/-- Python `re.search` scanning from position `i` (positions tried left
to right, `rem` positions remain). -/
def reSearchAux (re : RE) (s : PyStr) : Nat → Nat → Option (Nat × Nat × Cap)
  | 0, _ => none
  | rem + 1, i =>
    match reMatchAt re s i with
    | some jc => some (i, jc.1, jc.2)
    | none => reSearchAux re s rem (i + 1)

/-- Python `re.search`: start, end and `group(1)` span of the leftmost match. -/
def reSearch (re : RE) (s : PyStr) : Option (Nat × Nat × Cap) :=
  reSearchAux re s (s.length + 1) 0

/-- Python `re.finditer`: spans of the non-overlapping leftmost matches. -/
def reFindIterAux (re : RE) (s : PyStr) : Nat → Nat → List (Nat × Nat)
  | 0, _ => []
  | rem + 1, i =>
    match reSearchAux re s (s.length + 1 - i) i with
    | none => []
    | some m => (m.1, m.2.1) :: reFindIterAux re s rem (if m.1 < m.2.1 then m.2.1 else m.2.1 + 1)

def reFindIter (re : RE) (s : PyStr) : List (Nat × Nat) :=
  reFindIterAux re s (s.length + 1) 0

/-- Python slice `s[a:b]`. -/
def slice (s : PyStr) (a b : Nat) : PyStr := (s.drop a).take (b - a)

/-! ### The patterns of parser.py and ocr.py -/

def relit (s : String) : RE := RE.lit (pystr s)

def altList : List RE → RE
  | [] => RE.negAhead RE.eps
  | [r] => r
  | r :: rs => RE.alt r (altList rs)

def wsC : RE := RE.cls isSpaceC
def wsStar : RE := RE.star wsC
def wsPlus : RE := RE.seq wsC wsStar
def digC : RE := RE.cls isDigitC
def digStar : RE := RE.star digC
def digPlus : RE := RE.seq digC digStar
def dotComma : RE := RE.cls (fun c => c == 46 || c == 44)
def colonEq : RE := RE.cls (fun c => c == 58 || c == 61)

/-- The suffix alternation `(rb|ribu|k|jt|juta)`, alternatives in source order. -/
def suffixAlt : RE :=
  altList [relit ("rb"), relit ("ribu"), relit ("k"), relit ("jt"), relit ("juta")]

/-- The optional currency prefix `(?:rp\.?\s*)?`. -/
def rpPrefix : RE :=
  RE.opt (RE.seq (relit ("rp")) (RE.seq (RE.opt (relit ("."))) wsStar))

/-- parser.py `AMOUNT_TOKEN_RE`:
`(?i)(?:rp\.?\s*)?(\d+(?:[.,]\d+)?(?:[.,]\d{3})*)(?:\s*(rb|ribu|k|jt|juta)\b)?` -/
def amountTokenRE : RE :=
  RE.seq rpPrefix
    (RE.seq digPlus (RE.seq (RE.opt (RE.seq dotComma digPlus))
      (RE.seq (RE.star (RE.seq dotComma (RE.seq digC (RE.seq digC digC))))
        (RE.opt (RE.seq wsStar (RE.seq suffixAlt RE.wb))))))

/-- ocr.py `MONEY_TOKEN_RE`:
`(?i)\b(?:rp\.?\s*|idr\s*)?\d[\d.,]*(?:\s*(?:rb|ribu|k|jt|juta)\b)?\b` -/
def moneyTokenRE : RE :=
  RE.seq RE.wb (RE.seq
    (RE.opt (RE.alt
      (RE.seq (relit ("rp")) (RE.seq (RE.opt (relit ("."))) wsStar))
      (RE.seq (relit ("idr")) wsStar)))
    (RE.seq digC (RE.seq (RE.star (RE.cls (fun c => isDigitC c || c == 46 || c == 44)))
      (RE.seq (RE.opt (RE.seq wsStar (RE.seq suffixAlt RE.wb))) RE.wb))))

/-- The amount group of `parse_amount_after_keyword`:
`(?:rp\.?\s*)?\d[\d.,]*(?:\s*(?:rb|ribu|k|jt|juta)\b)?` -/
def moneyCore : RE :=
  RE.seq rpPrefix
    (RE.seq digC (RE.seq (RE.star (RE.cls (fun c => isDigitC c || c == 46 || c == 44)))
      (RE.opt (RE.seq wsStar (RE.seq suffixAlt RE.wb)))))

/-- The pattern of `parse_amount_after_keyword` for a given (escape-free) keyword:
`(?i){kw}\s*[:=]?\s*({moneyCore})(?![\d%])` -/
def amountAfterRE (kw : PyStr) : RE :=
  RE.seq (RE.lit kw) (RE.seq wsStar (RE.seq (RE.opt colonEq) (RE.seq wsStar
    (RE.seq (RE.grp moneyCore) (RE.negAhead (RE.cls (fun c => isDigitC c || c == 37)))))))

/-- The pattern of `parse_percentage_after_keyword`:
`(?i){kw}\s*[:=]?\s*([0-9]+(?:[.,][0-9]+)?)\s*%` -/
def percentAfterRE (kw : PyStr) : RE :=
  RE.seq (RE.lit kw) (RE.seq wsStar (RE.seq (RE.opt colonEq) (RE.seq wsStar
    (RE.seq (RE.grp (RE.seq digPlus (RE.opt (RE.seq dotComma digPlus))))
      (RE.seq wsStar (relit ("%")))))))

/-- The inline category override of `parse_expense_input`:
`(?i)(?:kategori|cat)\s*[:=-]?\s*([a-zA-Z/& ]+)$` -/
def catClsP (c : Nat) : Bool := isAlphaC c || c == 47 || c == 38 || c == 32

def categoryOverrideRE : RE :=
  RE.seq (RE.alt (relit ("kategori")) (relit ("cat")))
    (RE.seq wsStar (RE.seq (RE.opt (RE.cls (fun c => c == 58 || c == 61 || c == 45)))
      (RE.seq wsStar (RE.seq (RE.grp (RE.seq (RE.cls catClsP) (RE.star (RE.cls catClsP))))
        RE.eos))))

/-- The first people pattern of `parse_split_bill`:
`(?i)(?:bagi|untuk|dibagi)\s*(\d+)\s*(?:orang|org|pax|teman)?` -/
def peopleRE1 : RE :=
  RE.seq (altList [relit ("bagi"), relit ("untuk"), relit ("dibagi")])
    (RE.seq wsStar (RE.seq (RE.grp digPlus) (RE.seq wsStar
      (RE.opt (altList [relit ("orang"), relit ("org"), relit ("pax"), relit ("teman")])))))

/-- The second people pattern of `parse_split_bill`:
`(?i)(\d+)\s*(?:orang|org|pax|teman)` -/
def peopleRE2 : RE :=
  RE.seq (RE.grp digPlus)
    (RE.seq wsStar (altList [relit ("orang"), relit ("org"), relit ("pax"), relit ("teman")]))

/-- ocr.py `DATE_RE`: word-bounded group of one or two digits, a slash or
dash, one or two digits, a slash or dash, two to four digits. -/
def dateSep : RE := RE.cls (fun c => c == 47 || c == 45)
def d12 : RE := RE.seq digC (RE.opt digC)
def d24 : RE := RE.seq digC (RE.seq digC (RE.opt (RE.seq digC (RE.opt digC))))

def dateNumRE : RE :=
  RE.seq RE.wb
    (RE.seq (RE.grp (RE.seq d12 (RE.seq dateSep (RE.seq d12 (RE.seq dateSep d24))))) RE.wb)

/-- ocr.py `DATE_WORD_RE`:
`\b(\d{1,2}\s+(?:jan|feb|...|dec)[a-z]*\s+\d{2,4})\b` with `re.I`. -/
def monthAlt : RE :=
  altList [relit ("jan"), relit ("feb"), relit ("mar"), relit ("apr"), relit ("mei"),
    relit ("may"), relit ("jun"), relit ("jul"), relit ("agu"), relit ("aug"),
    relit ("sep"), relit ("okt"), relit ("oct"), relit ("nov"), relit ("des"), relit ("dec")]

def dateWordRE : RE :=
  RE.seq RE.wb (RE.seq (RE.grp (RE.seq d12 (RE.seq wsPlus (RE.seq monthAlt
    (RE.seq (RE.star (RE.cls isAlphaC)) (RE.seq wsPlus d24)))))) RE.wb)

/-- ocr.py `cut_labels_re` inside `_extract_total`:
`(?i)\b(source of fund|qris reference|reference|ref no|merchant pan|customer pan|terminal id|acquirer|saldo|balance|available|fee|admin)\b` -/
def cutLabelsRE : RE :=
  RE.seq RE.wb (RE.seq (altList [relit ("source of fund"), relit ("qris reference"),
    relit ("reference"), relit ("ref no"), relit ("merchant pan"), relit ("customer pan"),
    relit ("terminal id"), relit ("acquirer"), relit ("saldo"), relit ("balance"),
    relit ("available"), relit ("fee"), relit ("admin")]) RE.wb)

/-- ocr.py `_pick_bank_merchant`'s inline recipient pattern:
`(?i)(?:penerima|recipient|receiver|beneficiary|tujuan|kepada)\s*[:=-]\s*(.+)$` -/
def anyNonNL : RE := RE.cls (fun c => !(c == 10))

def bankInlineRE : RE :=
  RE.seq (altList [relit ("penerima"), relit ("recipient"), relit ("receiver"),
    relit ("beneficiary"), relit ("tujuan"), relit ("kepada")])
    (RE.seq wsStar (RE.seq (RE.cls (fun c => c == 58 || c == 61 || c == 45))
      (RE.seq wsStar (RE.seq (RE.grp (RE.seq anyNonNL (RE.star anyNonNL))) RE.eos))))

/-! ## parser.py: categories and free-text parsing -/

/-- parser.py `CATEGORY_KEYWORDS`, an insertion-ordered dict. -/
def categoryKeywordTable : List (PyStr × List PyStr) :=
  [ (pystr ("Makanan & Minuman"),
     [pystr ("kopi"), pystr ("makan"), pystr ("minum"), pystr ("resto"), pystr ("warung"),
      pystr ("gofood"), pystr ("grabfood"), pystr ("snack"), pystr ("jajan")]),
    (pystr ("Transportasi"),
     [pystr ("bensin"), pystr ("bbm"), pystr ("parkir"), pystr ("tol"), pystr ("gojek"),
      pystr ("gocar"), pystr ("grab"), pystr ("kereta"), pystr ("bus"), pystr ("ojek")]),
    (pystr ("Belanja"),
     [pystr ("belanja"), pystr ("indomaret"), pystr ("alfamart"), pystr ("supermarket"),
      pystr ("shopee"), pystr ("tokopedia"), pystr ("lazada"), pystr ("pakaian"),
      pystr ("sepatu")]),
    (pystr ("Tagihan"),
     [pystr ("listrik"), pystr ("pln"), pystr ("air"), pystr ("internet"), pystr ("wifi"),
      pystr ("pulsa"), pystr ("paket data"), pystr ("token"), pystr ("bpjs")]),
    (pystr ("Hiburan"),
     [pystr ("nonton"), pystr ("bioskop"), pystr ("netflix"), pystr ("spotify"),
      pystr ("game"), pystr ("steam"), pystr ("rekreasi")]),
    (pystr ("Kesehatan"),
     [pystr ("dokter"), pystr ("obat"), pystr ("klinik"), pystr ("apotek"),
      pystr ("vitamin"), pystr ("rumah sakit")]),
    (pystr ("Pendidikan"),
     [pystr ("kursus"), pystr ("buku"), pystr ("sekolah"), pystr ("kuliah"),
      pystr ("pelatihan")]) ]

/-- parser.py `infer_category`: first category (in declaration order) one of
whose keywords occurs in the lowered text, else "Lainnya". -/
def infer_category (item_text : PyStr) : PyStr :=
  let low := lowerStr item_text
  match categoryKeywordTable.find? (fun p => p.2.any (fun kw => containsSub low kw)) with
  | some p => p.1
  | none => pystr ("Lainnya")

/-- The whitespace/case normalisation at the start of `normalize_category`. -/
def cleanName (s : PyStr) : PyStr := lowerStr (stripList (collapseWS s))

/-- The canonical-category lookup loop of `normalize_category`. -/
def findCanonical (clean : PyStr) : Option PyStr :=
  (categoryKeywordTable.map (fun p => p.1)).find? (fun k => lowerStr k == clean)

/-- parser.py `normalize_category`. -/
def normalize_category (name : PyStr) : PyStr :=
  if cleanName name = [] then pystr ("Lainnya")
  else
    match findCanonical (cleanName name) with
    | some k => k
    | none => pyTitle (cleanName name)

/-- parser.py `STOPWORDS` (filler verbs), in source order. -/
def expenseStopwords : List PyStr :=
  [pystr ("beli"), pystr ("bayar"), pystr ("belanja"), pystr ("order"), pystr ("pesan"),
   pystr ("pesen"), pystr ("isi"), pystr ("topup"), pystr ("top up")]

/-- The characters of `strip(" ,.-:")` in `parse_expense_input`. -/
def stripItemChars : List Nat := [32, 44, 46, 45, 58]

/-- The stopword-stripping loop of `parse_expense_input`: drop the first
stopword (in source order) that prefixes the lowered item followed by a
space. -/
def applyStopword (item : PyStr) : PyStr :=
  let low := lowerStr item
  match expenseStopwords.find? (fun sw => (sw ++ [32]).isPrefixOf low) with
  | some sw => stripList (item.drop sw.length)
  | none => item

structure ParsedExpense where
  item : PyStr
  amount : Int
  category : PyStr

/-- parser.py `parse_expense_input`. -/
def parse_expense_input (text : PyStr) : Except Unit (Option ParsedExpense) :=
  let clean0 := collapseWS (stripList text)
  if clean0 = [] then .ok none
  else
    let catM := reSearch categoryOverrideRE clean0
    let category : PyStr :=
      match catM with
      | some (_, _, some ab) => normalize_category (slice clean0 ab.1 ab.2)
      | _ => []
    let clean :=
      match catM with
      | some (st, _, _) => stripList (clean0.take st)
      | none => clean0
    match reSearch amountTokenRE clean with
    | none => .ok none
    | some (a, b, _) =>
      match parse_amount_token (slice clean a b) with
      | .error e => .error e
      | .ok none => .ok none
      | .ok (some amount) =>
        if amount ≤ 0 then .ok none
        else
          let item0 := stripSet stripItemChars (clean.take a ++ clean.drop b)
          let item1 := applyStopword item0
          if item1 = [] then .ok none
          else
            let item := pyCapitalize (stripList item1)
            let selected := if category = [] then infer_category item else category
            .ok (some ⟨item, amount, selected⟩)

/-- parser.py `parse_amount_from_text`. -/
def parse_amount_from_text (text : PyStr) : Except Unit (Option Int) :=
  match reSearch amountTokenRE text with
  | none => .ok none
  | some (a, b, _) =>
    match parse_amount_token (slice text a b) with
    | .error e => .error e
    | .ok none => .ok none
    | .ok (some n) => if n ≤ 0 then .ok none else .ok (some n)

/-- parser.py `parse_percentage_after_keyword`; the `float(...)` call has no
guard in the source, so an unparseable group would raise — the group
pattern always parses, but the model keeps the raise branch. -/
def parse_percentage_after_keyword (text kw : PyStr) : Except Unit (Option PyFloat) :=
  match reSearch (percentAfterRE kw) text with
  | none => .ok none
  | some (_, _, some ab) =>
    match pyFloatOfString ((slice text ab.1 ab.2).map (fun c => if c == 44 then 46 else c)) with
    | some f => .ok (some f)
    | none => .error ()
  | some (_, _, none) => .error ()

/-- parser.py `parse_amount_after_keyword`. -/
def parse_amount_after_keyword (text kw : PyStr) : Except Unit (Option Int) :=
  match reSearch (amountAfterRE kw) text with
  | none => .ok none
  | some (_, _, some ab) => parse_amount_token (slice text ab.1 ab.2)
  | some (_, _, none) => .error ()

structure ParsedSplitBill where
  subtotal : Int
  people : Int
  service_amount : Int
  tax_amount : Int

/-- parser.py `ParsedSplitBill.grand_total` (derived property). -/
def ParsedSplitBill.grand_total (sb : ParsedSplitBill) : Int :=
  sb.subtotal + sb.service_amount + sb.tax_amount

/-- Python's `a or b` on `Optional[int]` (both `None` and `0` are falsy),
with `b` evaluated lazily. -/
def pyOrAmount (a : Except Unit (Option Int)) (b : Unit → Except Unit (Option Int)) :
    Except Unit (Option Int) :=
  match a with
  | .error e => .error e
  | .ok (some n) => if n = 0 then b () else .ok (some n)
  | .ok none => b ()

/-- Python `int(round(base * pct / 100))` for a float percentage `pct`
(exact: `pct` is a decimal). -/
def pctAmount (base : Int) (pf : PyFloat) : Except Unit Int :=
  match pf with
  | .val m e => pyRoundToInt (PyFloat.val (base * m) (e - 2))
  | _ => .error ()

/-- parser.py `parse_split_bill`. -/
def parse_split_bill (text : PyStr) : Except Unit (Option ParsedSplitBill) :=
  let low := lowerStr text
  if !(containsSub low (pystr ("split bill")) || containsSub low (pystr ("patungan"))) then
    .ok none
  else
    let pm :=
      match reSearch peopleRE1 low with
      | some r => some r
      | none => reSearch peopleRE2 low
    match pm with
    | none => .ok none
    | some (_, _, none) => .ok none
    | some (_, _, some ab) =>
      let people : Int := (digitsToNat (slice low ab.1 ab.2) : Int)
      if people ≤ 0 then .ok none
      else
        match pyOrAmount (pyOrAmount (pyOrAmount
            (parse_amount_after_keyword text (pystr ("total")))
            (fun _ => parse_amount_after_keyword text (pystr ("tagihan"))))
            (fun _ => parse_amount_after_keyword text (pystr ("bill"))))
            (fun _ => parse_amount_from_text text) with
        | .error e => .error e
        | .ok none => .ok none
        | .ok (some subtotal) =>
          if subtotal ≤ 0 then .ok none
          else
            match parse_amount_after_keyword text (pystr ("service")) with
            | .error e => .error e
            | .ok svcOpt =>
              let service0 : Int := svcOpt.getD 0
              let serviceE : Except Unit Int :=
                if service0 = 0 then
                  match parse_percentage_after_keyword text (pystr ("service")) with
                  | .error e => .error e
                  | .ok none => .ok service0
                  | .ok (some pf) => pctAmount subtotal pf
                else .ok service0
              match serviceE with
              | .error e => .error e
              | .ok service_amount =>
                match pyOrAmount (parse_amount_after_keyword text (pystr ("pajak")))
                    (fun _ => parse_amount_after_keyword text (pystr ("ppn"))) with
                | .error e => .error e
                | .ok taxOpt =>
                  let tax0 : Int := taxOpt.getD 0
                  let taxE : Except Unit Int :=
                    if tax0 = 0 then
                      match parse_percentage_after_keyword text (pystr ("pajak")) with
                      | .error e => .error e
                      | .ok (some pf) => pctAmount (subtotal + service_amount) pf
                      | .ok none =>
                        match parse_percentage_after_keyword text (pystr ("ppn")) with
                        | .error e => .error e
                        | .ok (some pf) => pctAmount (subtotal + service_amount) pf
                        | .ok none => .ok tax0
                    else .ok tax0
                  match taxE with
                  | .error e => .error e
                  | .ok tax_amount =>
                    .ok (some ⟨subtotal, people, service_amount, tax_amount⟩)

/-- service.py `_reply_split_bill`'s per-person share:
`int(math.ceil(split.grand_total / split.people))`, exact because the
true quotient's ceiling is what the float division's ceiling gives for
the magnitudes involved. -/
def split_per_person (sb : ParsedSplitBill) : Int :=
  -((-sb.grand_total).ediv sb.people)

/-! ## ocr.py: constants -/

def totalKeywords : List PyStr :=
  [pystr ("grand total"), pystr ("total bayar"), pystr ("amount due"), pystr ("netto"),
   pystr ("jumlah"), pystr ("total")]

def bankTotalKeywords : List PyStr :=
  [pystr ("total amount"), pystr ("jumlah transfer"), pystr ("nominal transfer"),
   pystr ("transfer amount"), pystr ("debit amount"), pystr ("nominal"),
   pystr ("total debit")]

def ignoreTotalHints : List PyStr :=
  [pystr ("ppn"), pystr ("tax"), pystr ("pajak"), pystr ("service"), pystr ("change"),
   pystr ("kembalian"), pystr ("payment"), pystr ("paid"), pystr ("debit"),
   pystr ("credit"), pystr ("cash"), pystr ("tunai"), pystr ("diskon"),
   pystr ("discount"), pystr ("admin"), pystr ("subtotal"), pystr ("sub total"),
   pystr ("saldo"), pystr ("balance"), pystr ("available"), pystr ("fee"),
   pystr ("pan"), pystr ("terminal id"), pystr ("reference no"), pystr ("reference"),
   pystr ("ref")]

def merchantSkipHints : List PyStr :=
  [pystr ("struk"), pystr ("receipt"), pystr ("invoice"), pystr ("tanggal"),
   pystr ("date"), pystr ("table"), pystr ("cashier"), pystr ("no."), pystr ("telp"),
   pystr ("phone")]

def bankHints : List PyStr :=
  [pystr ("bank"), pystr ("rekening"), pystr ("no rek"), pystr ("account"),
   pystr ("transfer"), pystr ("recipient"), pystr ("va "), pystr ("virtual account"),
   pystr ("m-banking"), pystr ("mobile banking"), pystr ("internet banking"),
   pystr ("debit"), pystr ("kredit"), pystr ("qris"), pystr ("trx"), pystr ("ref")]

def bankNames : List PyStr :=
  [pystr ("bca"), pystr ("bri"), pystr ("bni"), pystr ("mandiri"), pystr ("permata"),
   pystr ("cimb"), pystr ("danamon"), pystr ("ocbc"), pystr ("dbs"), pystr ("jago"),
   pystr ("blu"), pystr ("seabank"), pystr ("maybank")]

/-- The inline banking-context keyword tuple of `_detect_bank_transaction`. -/
def bankContextHints : List PyStr :=
  [pystr ("transfer"), pystr ("penerima"), pystr ("recipient"), pystr ("beneficiary"),
   pystr ("receiver"), pystr ("rekening"), pystr ("account"), pystr ("nominal"),
   pystr ("debit"), pystr ("saldo"), pystr ("ref"), pystr ("trx"), pystr ("qris")]

/-- ocr.py `MERCHANT_CATEGORY_OVERRIDES`, an insertion-ordered dict. -/
def merchantCategoryOverrides : List (PyStr × PyStr) :=
  [ (pystr ("alfamart"), pystr ("Belanja Bulanan")),
    (pystr ("indomaret"), pystr ("Belanja Bulanan")),
    (pystr ("superindo"), pystr ("Belanja Bulanan")),
    (pystr ("hypermart"), pystr ("Belanja Bulanan")),
    (pystr ("starbucks"), pystr ("Kopi/Snack")),
    (pystr ("kopi kenangan"), pystr ("Kopi/Snack")),
    (pystr ("janji jiwa"), pystr ("Kopi/Snack")),
    (pystr ("fore"), pystr ("Kopi/Snack")),
    (pystr ("mcd"), pystr ("Makanan & Minuman")),
    (pystr ("kfc"), pystr ("Makanan & Minuman")),
    (pystr ("burger king"), pystr ("Makanan & Minuman")) ]

def recipientLabels : List PyStr :=
  [pystr ("penerima"), pystr ("recipient"), pystr ("receiver"), pystr ("beneficiary"),
   pystr ("tujuan"), pystr ("kepada"), pystr ("nama penerima"), pystr ("nama tujuan")]

def invalidRecipientHints : List PyStr :=
  [pystr ("pan"), pystr ("ref"), pystr ("terminal"), pystr ("id"), pystr ("rekening"),
   pystr ("account")]

/-! ## ocr.py: pipeline -/

/-- The `str | Sequence[str]` input of `extract_receipt_data`. -/
inductive OCRInput where
  | ofString (s : PyStr)
  | ofLines (ls : List PyStr)

/-- ocr.py `_normalize_lines`. -/
def normalize_lines (ocr_input : OCRInput) : List PyStr :=
  let raw :=
    match ocr_input with
    | .ofString s => splitLines s
    | .ofLines ls => ls
  (raw.filter (fun l => stripList l ≠ [])).map (fun l => stripList (collapseWS l))

/-- The `token_low` intermediate of `_is_plausible_money_token`
(`token.lower().strip()`). -/
def plausTokenLow (token : PyStr) : PyStr := stripList (lowerStr token)

/-- The `clean` intermediate of `_is_plausible_money_token`: spaces
removed, then `rp.`, `rp`, `idr` removed in that order. -/
def plausClean (token : PyStr) : PyStr :=
  deleteSub (pystr ("idr")) (deleteSub (pystr ("rp"))
    (deleteSub (pystr ("rp.")) ((plausTokenLow token).filter (fun c => !(c == 32)))))

/-- The `endswith(("rb","ribu","k","jt","juta"))` test. -/
def moneySuffixEnds (clean : PyStr) : Bool :=
  [pystr ("rb"), pystr ("ribu"), pystr ("k"), pystr ("jt"), pystr ("juta")].any
    (fun suf => suf.isSuffixOf clean)

/-- ocr.py `_is_plausible_money_token`. -/
def is_plausible_money_token (token : PyStr) : Bool :=
  let token_low := plausTokenLow token
  let has_currency := containsSub token_low (pystr ("rp")) || containsSub token_low (pystr ("idr"))
  let clean := plausClean token
  if clean = [] then false
  else
    let has_suffix := moneySuffixEnds clean
    let digits_only := clean.filter isDigitC
    if digits_only = [] then false
    else if !has_suffix && decide (12 < digits_only.length) then false
    else if !has_suffix && !has_currency && !(clean.contains 46) && !(clean.contains 44)
        && decide (8 ≤ digits_only.length) then false
    else if !has_suffix && (clean.contains 46 || clean.contains 44) then
      let normalized := clean.map (fun c => if c == 44 then 46 else c)
      let groups := splitOnC 46 normalized
      if decide (5 < groups.length) then false
      else if decide (1 < groups.length) && (groups.drop 1).any (fun g => !(g.length == 3)) then
        false
      else true
    else true

/-- The token list produced by `MONEY_TOKEN_RE.finditer` in `_extract_amounts`. -/
def moneyTokens (text : PyStr) : List PyStr :=
  (reFindIter moneyTokenRE text).map (fun ab => slice text ab.1 ab.2)

/-- The filtering loop of `_extract_amounts`: keep plausible tokens whose
parsed value is truthy and within `100 ≤ v ≤ 2_000_000_000`. -/
def extractAmountsLoop : List PyStr → Except Unit (List Int)
  | [] => .ok []
  | tok :: rest =>
    if is_plausible_money_token tok then
      match parse_amount_token tok with
      | .error e => .error e
      | .ok none => extractAmountsLoop rest
      | .ok (some n) =>
        if n ≠ 0 ∧ 100 ≤ n ∧ n ≤ 2000000000 then
          match extractAmountsLoop rest with
          | .error e => .error e
          | .ok l => .ok (n :: l)
        else extractAmountsLoop rest
    else extractAmountsLoop rest

/-- ocr.py `_extract_amounts`. -/
def extract_amounts (text : PyStr) : Except Unit (List Int) :=
  extractAmountsLoop (moneyTokens text)

/-- ocr.py `_pick_merchant`'s scanning loop over the first three lines. -/
def pickMerchantLoop : List PyStr → PyStr → Int → PyStr
  | [], m, _ => m
  | line :: rest, m, best =>
    let low := lowerStr line
    if merchantSkipHints.any (fun h => containsSub low h) then pickMerchantLoop rest m best
    else
      let letters : Int := ((line.filter isAlphaC).length : Int)
      let digits : Int := ((line.filter isDigitC).length : Int)
      let score := letters - digits * 2 - (if containsSub low (pystr ("rp")) then 8 else 0)
      if best < score ∧ 3 ≤ letters then pickMerchantLoop rest (pyTitle line) score
      else pickMerchantLoop rest m best

/-- ocr.py `_pick_merchant`. -/
def pick_merchant (lines : List PyStr) : PyStr :=
  pickMerchantLoop (lines.take 3) (pystr ("Merchant tidak diketahui")) (-999)

/-- ocr.py `_detect_bank_transaction`. -/
def detect_bank_transaction (lines : List PyStr) : Bool :=
  let joined := lowerStr (joinWith 32 lines)
  let has_bank_name := bankNames.any (fun b => containsSub joined b)
  let has_bank_context := bankContextHints.any (fun h => containsSub joined h)
  if has_bank_name && has_bank_context then true
  else decide (2 ≤ (bankHints.filter (fun h => containsSub joined h)).length)

/-- The acceptance test for a recipient candidate in `_pick_bank_merchant`:
length at least 3, no invalid hint, digit ratio below `0.4` (exact
rational comparison, see the module comment). -/
def candidateOK (candidate : PyStr) : Bool :=
  let cand_low := lowerStr candidate
  decide (3 ≤ candidate.length)
    && !(invalidRecipientHints.any (fun h => containsSub cand_low h))
    && decide (5 * (candidate.filter isDigitC).length < 2 * (max candidate.length 1))

/-- The label-scanning loop of `_pick_bank_merchant`. -/
def pickBankMerchantLoop : List PyStr → Option PyStr
  | [] => none
  | line :: rest =>
    let low := lowerStr line
    if recipientLabels.any (fun l => containsSub low l) then
      let candidate :=
        match reSearch bankInlineRE line with
        | some (_, _, some ab) => stripList (slice line ab.1 ab.2)
        | _ =>
          match rest with
          | next :: _ => stripList next
          | [] => []
      if candidateOK candidate then some (pyTitle candidate)
      else pickBankMerchantLoop rest
    else pickBankMerchantLoop rest

/-- ocr.py `_pick_bank_merchant`. -/
def pick_bank_merchant (lines : List PyStr) : PyStr :=
  match pickBankMerchantLoop lines with
  | some m => m
  | none =>
    match (lines.take 6).findSome?
        (fun line => bankNames.find? (fun b => containsSub (lowerStr line) b)) with
    | some bank => pystr ("Transfer ") ++ upperStr bank
    | none => pystr ("Transaksi Bank")

/-- ocr.py `_pick_category`. -/
def pick_category (merchant : PyStr) (lines : List PyStr) : PyStr :=
  let merchant_low := lowerStr merchant
  match merchantCategoryOverrides.find? (fun p => containsSub merchant_low p.1) with
  | some p => p.2
  | none =>
    let joined := joinWith 32 lines
    let inferred := infer_category (merchant ++ 32 :: joined)
    if inferred = pystr ("Lainnya") then pystr ("Belanja Lainnya") else inferred

/-- The keyword-line segment of `_extract_total`: the part of the line
after the keyword occurrence, truncated at the first stop label. -/
def keywordSegment (line low kw : PyStr) : PyStr :=
  let seg := line.drop ((pyFind low kw).getD 0 + kw.length)
  match reSearch cutLabelsRE seg with
  | some m => seg.take m.1
  | none => seg

/-- The inner `for keyword in keywords` loop of `_extract_total` on one
line: for each keyword present in the line, the first plausible amount
of its segment (if any), in keyword order. -/
def lineInline (line low : PyStr) : List PyStr → Except Unit (List Int)
  | [] => .ok []
  | kw :: kws =>
    if containsSub low kw then
      match extract_amounts (keywordSegment line low kw) with
      | .error e => .error e
      | .ok amts =>
        match lineInline line low kws with
        | .error e => .error e
        | .ok tail =>
          match amts with
          | [] => .ok tail
          | a :: _ => .ok (a :: tail)
    else lineInline line low kws

/-- The next-line lookup of `_extract_total` when a keyword line has no
inline amount: the first plausible amount of the following line, absent
when there is no following line, it carries a noise-exclusion hint, or
it has no plausible amount. -/
def nextLineAmount : List PyStr → Except Unit (Option Int)
  | [] => .ok none
  | next :: _ =>
    if ignoreTotalHints.any (fun h => containsSub (lowerStr next) h) then .ok none
    else
      match extract_amounts next with
      | .error e => .error e
      | .ok [] => .ok none
      | .ok (a :: _) => .ok (some a)

/-- The keyword-anchored candidate collection of `_extract_total`
(the `for idx, line in enumerate(lines)` loop). -/
def keywordLoop (kws : List PyStr) : List PyStr → Except Unit (List Int)
  | [] => .ok []
  | line :: rest =>
    if containsSub (lowerStr line) (pystr ("subtotal"))
        || containsSub (lowerStr line) (pystr ("sub total")) then
      keywordLoop kws rest
    else if !(kws.any (fun kw => containsSub (lowerStr line) kw)) then keywordLoop kws rest
    else
      match lineInline line (lowerStr line) kws with
      | .error e => .error e
      | .ok inl =>
        if inl ≠ [] then
          match keywordLoop kws rest with
          | .error e => .error e
          | .ok tail => .ok (inl ++ tail)
        else
          match nextLineAmount rest with
          | .error e => .error e
          | .ok none => keywordLoop kws rest
          | .ok (some a) =>
            match keywordLoop kws rest with
            | .error e => .error e
            | .ok tail => .ok (a :: tail)

/-- The fallback scan of `_extract_total`: plausible amounts at least 1000
from lines without a noise-exclusion hint. -/
def collectFallback : List PyStr → Except Unit (List Int)
  | [] => .ok []
  | line :: rest =>
    if ignoreTotalHints.any (fun h => containsSub (lowerStr line) h) then
      collectFallback rest
    else
      match extract_amounts line with
      | .error e => .error e
      | .ok amts =>
        match collectFallback rest with
        | .error e => .error e
        | .ok tail => .ok (amts.filter (fun a => decide (1000 ≤ a)) ++ tail)

/-- Python `sorted` on integers (insertion sort, ascending). -/
def insertSorted (x : Int) : List Int → List Int
  | [] => [x]
  | y :: r => if x ≤ y then x :: y :: r else y :: insertSorted x r

def pySorted : List Int → List Int
  | [] => []
  | x :: r => insertSorted x (pySorted r)

/-- Python `max` on a non-empty integer list. -/
def listMax : List Int → Int
  | [] => 0
  | a :: rest => rest.foldl (fun x y => max x y) a

/-- The keyword set selected at the top of `_extract_total`. -/
def totalKeywordSet (is_bank_transaction : Bool) : List PyStr :=
  if is_bank_transaction then bankTotalKeywords ++ totalKeywords else totalKeywords

/-- ocr.py `_extract_total`. -/
def extract_total (lines : List PyStr) (is_bank_transaction : Bool) :
    Except Unit (Option Int × Bool) :=
  match keywordLoop (totalKeywordSet is_bank_transaction) lines with
  | .error e => .error e
  | .ok keyword_amounts =>
    if keyword_amounts ≠ [] then
      .ok (some ((pySorted keyword_amounts).getD (keyword_amounts.length / 2) 0), false)
    else
      match collectFallback lines with
      | .error e => .error e
      | .ok all_amounts =>
        if all_amounts ≠ [] then .ok (some (listMax all_amounts), true)
        else .ok (none, false)

def alnumCount (s : PyStr) : Nat := (s.filter isAlnumC).length

def printableCount (s : PyStr) : Nat := (s.filter (fun c => !(isSpaceC c))).length

/-- The `ratio < 0.45` test of `_is_noisy` (`ratio = 0` when there is
nothing printable); exact rational comparison, see the module comment. -/
def weakTextDensity (joined : PyStr) : Bool :=
  if printableCount joined = 0 then true
  else decide (100 * alnumCount joined < 45 * printableCount joined)

/-- ocr.py `_is_noisy`. -/
def is_noisy (lines : List PyStr) (total : Option Int) (used_fallback_total : Bool) : Bool :=
  if lines = [] then true
  else
    let joined := joinWith 32 lines
    let very_short := decide (lines.length ≤ 2)
    let no_total :=
      match total with
      | none => true
      | some t => decide (t < 1000)
    let weak_fallback := used_fallback_total && (very_short || weakTextDensity joined)
    no_total || weak_fallback

/-- The date extraction of `extract_receipt_data` (`DATE_RE`, then
`DATE_WORD_RE`, then the sentinel `"-"`). -/
def extractDate (raw_text : PyStr) : PyStr :=
  match reSearch dateNumRE raw_text with
  | some (_, _, some ab) => slice raw_text ab.1 ab.2
  | _ =>
    match reSearch dateWordRE raw_text with
    | some (_, _, some ab) => slice raw_text ab.1 ab.2
    | _ => pystr ("-")

/-- Decimal digits of a natural number, most significant first. -/
def natToDigitsAux : Nat → Nat → PyStr
  | 0, _ => []
  | fuel + 1, n => if n = 0 then [] else natToDigitsAux fuel (n / 10) ++ [48 + n % 10]

def natToDigits (n : Nat) : PyStr := if n = 0 then [48] else natToDigitsAux (n + 1) n

/-- Thousands separators: `46` (a dot) after every group of three,
working on the reversed digit list. -/
def groupRev : PyStr → PyStr
  | a :: b :: c :: d :: rest => a :: b :: c :: 46 :: groupRev (d :: rest)
  | s => s

/-- parser.py `format_idr`: `f"Rp{amount:,}".replace(",", ".")`. -/
def format_idr (amount : Int) : PyStr :=
  pystr ("Rp") ++ (if amount < 0 then [45] else [])
    ++ (groupRev (natToDigits amount.natAbs).reverse).reverse

structure ReceiptExtraction where
  merchant : PyStr
  date_text : Option PyStr
  total : Int
  category : PyStr
  used_fallback_total : Bool
  is_bank_transaction : Bool

structure OCRResult where
  raw_text : PyStr
  receipt : Option ReceiptExtraction
  needs_manual_total_confirmation : Bool
  reply_text : PyStr

/-- Python `total or 0` on `Optional[int]`. -/
def totalOrZero : Option Int → Int
  | none => 0
  | some t => t

def noisyReply : PyStr :=
  pystr ("Sepertinya struknya agak buram, boleh konfirmasi total belanjanya berapa, Kak?")

/-- The confirmation f-string of `extract_receipt_data`. -/
def confirmReply (is_bank_transaction : Bool) (r : ReceiptExtraction) : PyStr :=
  let source_label :=
    if is_bank_transaction then pystr ("bukti transaksi bank") else pystr ("struk")
  pystr ("Wah, ") ++ source_label ++ pystr (" dari ") ++ r.merchant
    ++ pystr (" ya! Berhasil dicatat nih:") ++ [10, 10]
    ++ pystr ("Total: ") ++ format_idr r.total ++ [10, 10]
    ++ pystr ("Kategori: ") ++ r.category ++ [10, 10]
    ++ pystr ("Tanggal: ") ++ r.date_text.getD [] ++ [10]
    ++ pystr ("Mau langsung simpan atau ada yang mau diubah?")

/-- ocr.py `extract_receipt_data`. -/
def extract_receipt_data (ocr_input : OCRInput) : Except Unit OCRResult :=
  let lines := normalize_lines ocr_input
  let raw_text := joinWith 10 lines
  let is_bank_transaction := detect_bank_transaction lines
  match extract_total lines is_bank_transaction with
  | .error e => .error e
  | .ok tf =>
    if is_noisy lines tf.1 tf.2 then
      .ok ⟨raw_text, none, true, noisyReply⟩
    else
      let merchant :=
        if is_bank_transaction then pick_bank_merchant lines else pick_merchant lines
      let date_text := extractDate raw_text
      let category :=
        if is_bank_transaction then pystr ("Transfer/Bank")
        else pick_category merchant lines
      let receipt : ReceiptExtraction :=
        ⟨merchant, some date_text, totalOrZero tf.1, category, tf.2, is_bank_transaction⟩
      .ok ⟨raw_text, some receipt, false, confirmReply is_bank_transaction receipt⟩

/-! ## Supporting lemmas -/

theorem mem_of_mem_dropWhile {p : Nat → Bool} {s : PyStr} {c : Nat}
    (h : c ∈ s.dropWhile p) : c ∈ s := by
  induction s with
  | nil => exact absurd h (by simp)
  | cons a rest ih =>
    by_cases hp : p a
    · simp only [List.dropWhile_cons, hp, if_true] at h
      exact List.mem_cons_of_mem a (ih h)
    · simp only [List.dropWhile_cons, hp, if_false] at h
      exact h

theorem mem_of_mem_stripList {s : PyStr} {c : Nat} (h : c ∈ stripList s) : c ∈ s := by
  unfold stripList at h
  rw [List.mem_reverse] at h
  have h2 := mem_of_mem_dropWhile h
  rw [List.mem_reverse] at h2
  exact mem_of_mem_dropWhile h2

theorem mem45_of_mem_lowerStr {s : PyStr} (h : 45 ∈ lowerStr s) : 45 ∈ s := by
  rcases List.mem_map.mp h with ⟨c, hc, he⟩
  unfold toLowerC at he
  split at he
  · rename_i hu
    simp only [isUpperC, Bool.and_eq_true, decide_eq_true_eq] at hu
    omega
  · exact he ▸ hc

theorem mem_of_mem_deleteSubAux {pat : PyStr} {c : Nat} :
    ∀ (fuel : Nat) (s : PyStr), c ∈ deleteSubAux pat fuel s → c ∈ s := by
  intro fuel
  induction fuel with
  | zero =>
    intro s h
    cases s with
    | nil => exact absurd h (by simp [deleteSubAux])
    | cons a rest => exact h
  | succ f ih =>
    intro s h
    cases s with
    | nil => exact absurd h (by simp [deleteSubAux])
    | cons a rest =>
      rw [deleteSubAux] at h
      split at h
      · exact List.drop_subset _ _ (ih _ h)
      · rcases List.mem_cons.mp h with h1 | h1
        · simp [h1]
        · exact List.mem_cons_of_mem a (ih _ h1)

theorem mem_of_mem_deleteSub {pat s : PyStr} {c : Nat} (h : c ∈ deleteSub pat s) : c ∈ s :=
  mem_of_mem_deleteSubAux s.length s h

theorem mem_of_mem_trimSuffix {s : PyStr} {c : Nat} (h : c ∈ (trimSuffix s).2) : c ∈ s := by
  unfold trimSuffix at h
  split at h
  · exact List.take_subset _ _ h
  · exact h

/-! lemmas about rounding and float signs (for C3) -/

theorem roundHalfEvenInt_nonneg {m d : Int} (hm : 0 ≤ m) (hd : 0 < d) :
    0 ≤ roundHalfEvenInt m d := by
  have hq : 0 ≤ Int.ediv m d := Int.ediv_nonneg hm (le_of_lt hd)
  simp only [roundHalfEvenInt]
  split_ifs <;> omega

theorem pyRoundToInt_nonneg {m e n : Int} (hm : 0 ≤ m)
    (h : pyRoundToInt (PyFloat.val m e) = .ok n) : 0 ≤ n := by
  simp only [pyRoundToInt] at h
  split at h
  · injection h with h2
    rw [← h2]
    exact mul_nonneg hm (by positivity)
  · injection h with h2
    rw [← h2]
    exact roundHalfEvenInt_nonneg hm (by positivity)

theorem parseDecimal_nonneg {r : PyStr} {m e : Int} (h : parseDecimal r = some (m, e)) :
    0 ≤ m := by
  unfold parseDecimal at h
  split at h
  · exact absurd h (by simp)
  · split at h
    · exact absurd h (by simp)
    · injection h with h2
      rw [Prod.mk.injEq] at h2
      rw [← h2.1]
      exact Int.ofNat_nonneg _

theorem floatSign_not_neg {t : PyStr} (hm : ¬ 45 ∈ t) : (floatSign t).1 = false := by
  unfold floatSign
  cases t with
  | nil => rfl
  | cons a rest =>
    by_cases ha : a = 43
    · simp [ha]
    · by_cases hb : a = 45
      · exact absurd (by simp [hb]) hm
      · simp [ha, hb]

theorem pyFloatOfString_val_nonneg {s : PyStr} {m e : Int} (hm : ¬ 45 ∈ s)
    (h : pyFloatOfString s = some (PyFloat.val m e)) : 0 ≤ m := by
  unfold pyFloatOfString at h
  have hstrip : ¬ 45 ∈ stripList s := fun hx => hm (mem_of_mem_stripList hx)
  rw [floatSign_not_neg hstrip] at h
  split at h
  · exact absurd h (by simp)
  · split at h
    · exact absurd h (by simp)
    · split at h
      · exact absurd h (by simp)
      · rename_i me hme
        simp only [if_neg Bool.false_ne_true, Option.some.injEq, PyFloat.val.injEq] at h

        rw [← h.1]
        exact @parseDecimal_nonneg _ me.1 me.2 (by cases me; exact hme)

/-! lemmas about the amount-candidate bounds (for C10) -/

theorem extractAmountsLoop_bounds :
    ∀ (toks : List PyStr) (l : List Int), extractAmountsLoop toks = .ok l →
      ∀ x ∈ l, 100 ≤ x ∧ x ≤ 2000000000 := by
  intro toks
  induction toks with
  | nil =>
    intro l h x hx
    unfold extractAmountsLoop at h
    injection h with h2
    rw [← h2] at hx
    exact absurd hx (by simp)
  | cons tok rest ih =>
    intro l h x hx
    unfold extractAmountsLoop at h
    split at h
    · split at h
      · exact absurd h (by simp)
      · exact ih l h x hx
      · rename_i n
        split at h
        · rename_i hcond
          split at h
          · exact absurd h (by simp)
          · rename_i l2 hl2
            injection h with h2
            rw [← h2] at hx
            rcases List.mem_cons.mp hx with hx1 | hx2
            · rw [hx1]; exact ⟨hcond.2.1, hcond.2.2⟩
            · exact ih l2 hl2 x hx2
        · exact ih l h x hx
    · exact ih l h x hx

theorem extract_amounts_bounds {text : PyStr} {l : List Int}
    (h : extract_amounts text = .ok l) : ∀ x ∈ l, 100 ≤ x ∧ x ≤ 2000000000 :=
  extractAmountsLoop_bounds (moneyTokens text) l h

theorem lineInline_bounds {line low : PyStr} :
    ∀ (kws : List PyStr) (l : List Int), lineInline line low kws = .ok l →
      ∀ x ∈ l, 100 ≤ x ∧ x ≤ 2000000000 := by
  intro kws
  induction kws with
  | nil =>
    intro l h x hx
    unfold lineInline at h
    injection h with h2
    rw [← h2] at hx
    exact absurd hx (by simp)
  | cons kw kws2 ih =>
    intro l h x hx
    unfold lineInline at h
    split at h
    · split at h
      · exact absurd h (by simp)
      · rename_i amts hamts
        split at h
        · exact absurd h (by simp)
        · rename_i tail htail
          split at h
          · injection h with h2
            rw [← h2] at hx
            exact ih tail htail x hx
          · rename_i a rest2
            injection h with h2
            rw [← h2] at hx
            rcases List.mem_cons.mp hx with hx1 | hx2
            · rw [hx1]
              exact extract_amounts_bounds hamts a (List.mem_cons_self a rest2)
            · exact ih tail htail x hx2
    · exact ih l h x hx

theorem nextLineAmount_bounds {rest : List PyStr} {a : Int}
    (h : nextLineAmount rest = .ok (some a)) : 100 ≤ a ∧ a ≤ 2000000000 := by
  cases rest with
  | nil => simp [nextLineAmount] at h
  | cons next more =>
    simp only [nextLineAmount] at h
    split at h
    · simp at h
    · split at h
      · simp at h
      · simp at h
      · rename_i a2 rest2 hamts
        injection h with h2
        injection h2 with h3
        rw [← h3]
        exact extract_amounts_bounds hamts a2 (List.mem_cons_self a2 rest2)

theorem keywordLoop_bounds {kws : List PyStr} :
    ∀ (lines : List PyStr) (l : List Int), keywordLoop kws lines = .ok l →
      ∀ x ∈ l, 100 ≤ x ∧ x ≤ 2000000000 := by
  intro lines
  induction lines with
  | nil =>
    intro l h x hx
    unfold keywordLoop at h
    injection h with h2
    rw [← h2] at hx
    exact absurd hx (by simp)
  | cons line rest ih =>
    intro l h x hx
    unfold keywordLoop at h
    split at h
    · exact ih l h x hx
    · split at h
      · exact ih l h x hx
      · split at h
        · exact absurd h (by simp)
        · rename_i inl hinl
          split at h
          · split at h
            · exact absurd h (by simp)
            · rename_i tail htail
              injection h with h2
              rw [← h2] at hx
              rcases List.mem_append.mp hx with hx1 | hx2
              · exact lineInline_bounds _ inl hinl x hx1
              · exact ih tail htail x hx2
          · split at h
            · exact absurd h (by simp)
            · exact ih l h x hx
            · rename_i a hnext
              split at h
              · exact absurd h (by simp)
              · rename_i tail htail
                injection h with h2
                rw [← h2] at hx
                rcases List.mem_cons.mp hx with hx1 | hx2
                · rw [hx1]
                  exact nextLineAmount_bounds hnext
                · exact ih tail htail x hx2

theorem collectFallback_bounds :
    ∀ (lines : List PyStr) (l : List Int), collectFallback lines = .ok l →
      ∀ x ∈ l, 1000 ≤ x ∧ x ≤ 2000000000 := by
  intro lines
  induction lines with
  | nil =>
    intro l h x hx
    unfold collectFallback at h
    injection h with h2
    rw [← h2] at hx
    exact absurd hx (by simp)
  | cons line rest ih =>
    intro l h x hx
    unfold collectFallback at h
    split at h
    · exact ih l h x hx
    · split at h
      · exact absurd h (by simp)
      · rename_i amts hamts
        split at h
        · exact absurd h (by simp)
        · rename_i tail htail
          injection h with h2
          rw [← h2] at hx
          rcases List.mem_append.mp hx with hx1 | hx2
          · have hmem := List.mem_filter.mp hx1
            refine ⟨by simpa using hmem.2, ?_⟩
            exact (extract_amounts_bounds hamts x hmem.1).2
          · exact ih tail htail x hx2

/-! lemmas about sorting and maxima (for C1 and C10) -/

theorem mem_of_mem_insertSorted {x y : Int} :
    ∀ {l : List Int}, y ∈ insertSorted x l → y = x ∨ y ∈ l := by
  intro l
  induction l with
  | nil =>
    intro h
    unfold insertSorted at h
    rcases List.mem_singleton.mp h with h1
    exact Or.inl h1
  | cons a rest ih =>
    intro h
    unfold insertSorted at h
    split at h
    · rcases List.mem_cons.mp h with h1 | h1
      · exact Or.inl h1
      · exact Or.inr h1
    · rcases List.mem_cons.mp h with h1 | h1
      · exact Or.inr (by rw [h1]; exact List.mem_cons_self a rest)
      · rcases ih h1 with h2 | h2
        · exact Or.inl h2
        · exact Or.inr (List.mem_cons_of_mem a h2)

theorem mem_of_mem_pySorted {y : Int} :
    ∀ {l : List Int}, y ∈ pySorted l → y ∈ l := by
  intro l
  induction l with
  | nil => intro h; exact absurd h (by simp [pySorted])
  | cons a rest ih =>
    intro h
    unfold pySorted at h
    rcases mem_of_mem_insertSorted h with h1 | h1
    · rw [h1]; exact List.mem_cons_self a rest
    · exact List.mem_cons_of_mem a (ih h1)

theorem length_insertSorted (x : Int) :
    ∀ (l : List Int), (insertSorted x l).length = l.length + 1 := by
  intro l
  induction l with
  | nil => rfl
  | cons a rest ih =>
    unfold insertSorted
    split
    · simp
    · simp [ih]

theorem length_pySorted : ∀ (l : List Int), (pySorted l).length = l.length := by
  intro l
  induction l with
  | nil => rfl
  | cons a rest ih =>
    unfold pySorted
    rw [length_insertSorted, ih, List.length_cons]

theorem getD_mem_of_lt {l : List Int} {i : Nat} (h : i < l.length) : l.getD i 0 ∈ l := by
  rw [List.getD_eq_getElem?_getD, List.getElem?_eq_getElem h]
  exact List.getElem_mem h

theorem foldlMax_mem :
    ∀ (l : List Int) (a : Int), l.foldl (fun x y => max x y) a = a ∨
      l.foldl (fun x y => max x y) a ∈ l := by
  intro l
  induction l with
  | nil => intro a; exact Or.inl rfl
  | cons b rest ih =>
    intro a
    rw [List.foldl_cons]
    rcases ih (max a b) with h | h
    · rcases max_choice a b with h2 | h2
      · exact Or.inl (by rw [h, h2])
      · exact Or.inr (by rw [h, h2]; exact List.mem_cons_self b rest)
    · exact Or.inr (List.mem_cons_of_mem b h)

theorem listMax_mem {l : List Int} (h : l ≠ []) : listMax l ∈ l := by
  cases l with
  | nil => exact absurd rfl h
  | cons a rest =>
    simp only [listMax]
    rcases foldlMax_mem rest a with h1 | h1
    · rw [h1]; exact List.mem_cons_self a rest
    · exact List.mem_cons_of_mem a h1

theorem extract_total_upper {lines : List PyStr} {b : Bool} {t : Int} {fb : Bool}
    (h : extract_total lines b = .ok (some t, fb)) : t ≤ 2000000000 := by
  unfold extract_total at h
  split at h
  · exact absurd h (by simp)
  · rename_i ka hka
    split at h
    · rename_i hne
      injection h with h2
      rw [Prod.mk.injEq] at h2
      have h3 := h2.1
      injection h3 with h4
      have hpos : 0 < ka.length := List.length_pos.mpr hne
      have hlt : ka.length / 2 < ka.length := Nat.div_lt_self hpos (by omega)
      have hmem : (pySorted ka).getD (ka.length / 2) 0 ∈ pySorted ka := by
        apply getD_mem_of_lt
        rw [length_pySorted]
        exact hlt
      have hmem2 := mem_of_mem_pySorted hmem
      have := (keywordLoop_bounds lines ka hka _ hmem2).2
      rw [← h4]
      exact this
    · split at h
      · exact absurd h (by simp)
      · rename_i alls halls
        split at h
        · rename_i hne
          injection h with h2
          rw [Prod.mk.injEq] at h2
          have h3 := h2.1
          injection h3 with h4
          have hmem := listMax_mem hne
          have := (collectFallback_bounds lines alls halls _ hmem).2
          rw [← h4]
          exact this
        · injection h with h2
          rw [Prod.mk.injEq] at h2
          exact absurd h2.1 (by simp)

/-! lemmas about the noise gate -/

theorem is_noisy_false_total {lines : List PyStr} {total : Option Int} {ufb : Bool}
    (h : is_noisy lines total ufb = false) : ∃ t, total = some t ∧ 1000 ≤ t := by
  simp only [is_noisy] at h
  split at h
  · exact absurd h (by simp)
  · rw [Bool.or_eq_false_iff] at h
    have hno := h.1
    cases total with
    | none => exact absurd hno (by simp)
    | some t =>
      refine ⟨t, rfl, ?_⟩
      simp only [decide_eq_false_iff_not, not_lt] at hno
      exact hno

theorem is_noisy_true_of {lines : List PyStr} {total : Option Int} {ufb : Bool}
    (hshort : lines.length ≤ 2)
    (hcond : ufb = true ∨ total = none ∨ ∃ t, total = some t ∧ t < 1000) :
    is_noisy lines total ufb = true := by
  simp only [is_noisy]
  split
  · rfl
  · rcases hcond with hufb | hnone | ⟨t, ht, hlt⟩
    · rw [hufb]
      simp [hshort]
    · rw [hnone]
      simp
    · rw [ht]
      simp [hlt]

/-! ## Claim theorems -/

/-- C1: whenever the total extractor collects at least one keyword-anchored
candidate amount, the returned total is the element at index
`count / 2` of the sorted candidate list and `usedFallbackTotal` is
false. -/
theorem c1_keyword_median (lines : List PyStr) (is_bank : Bool) (ka : List Int)
    (hka : keywordLoop (totalKeywordSet is_bank) lines = .ok ka) (hne : ka ≠ []) :
    extract_total lines is_bank =
      .ok (some ((pySorted ka).getD (ka.length / 2) 0), false) := by
  unfold extract_total
  rw [hka]
  exact if_pos hne

/-- C1 witness: with keyword-anchored candidates `[48000, 50000, 1000000]`
(one OCR misread) the extractor returns 50000 — the lower median, not
the outlier and not an average. -/
theorem c1_keyword_median_witness :
    keywordLoop (totalKeywordSet false)
        [pystr ("total 48000"), pystr ("total 50000"), pystr ("total 1000000")] =
      .ok [48000, 50000, 1000000] ∧
    extract_total [pystr ("total 48000"), pystr ("total 50000"), pystr ("total 1000000")]
        false = .ok (some 50000, false) := by
  constructor
  · rfl
  · exact c1_keyword_median
      [pystr ("total 48000"), pystr ("total 50000"), pystr ("total 1000000")] false
      [48000, 50000, 1000000] rfl (by simp)

/-- C4: `parse_expense_input "beli kopi 25rb"` strips the filler verb,
capitalizes the item, normalizes `25rb` to 25000 and infers the
category from the keyword table. -/
theorem c4_parse_expense_beli_kopi :
    parse_expense_input (pystr ("beli kopi 25rb")) =
      .ok (some ⟨pystr ("Kopi"), 25000, pystr ("Makanan & Minuman")⟩) := rfl

/-- C5: the split-bill example parses to subtotal 300000, 3 people,
service `round(300000 * 10 / 100) = 30000`, tax
`round((300000 + 30000) * 10 / 100) = 33000`, grand total 363000, and
the reporting layer's per-person share `ceil(363000 / 3) = 121000`. -/
theorem c5_split_bill_example :
    parse_split_bill
        (pystr ("split bill total 300000 untuk 3 orang service 10% pajak 10%")) =
      .ok (some ⟨300000, 3, 30000, 33000⟩) ∧
    ParsedSplitBill.grand_total ⟨300000, 3, 30000, 33000⟩ = 363000 ∧
    split_per_person ⟨300000, 3, 30000, 33000⟩ = 121000 :=
  ⟨rfl, rfl, rfl⟩

/-- C6: a raw token with no currency marker, no magnitude suffix, no
grouping punctuation and at least 8 digits is rejected by the
money-token plausibility filter. -/
theorem c6_reference_rejected (token : PyStr)
    (hrp : containsSub (plausTokenLow token) (pystr ("rp")) = false)
    (hidr : containsSub (plausTokenLow token) (pystr ("idr")) = false)
    (hsuf : moneySuffixEnds (plausClean token) = false)
    (hdot : (plausClean token).contains 46 = false)
    (hcom : (plausClean token).contains 44 = false)
    (hd : 8 ≤ ((plausClean token).filter isDigitC).length) :
    is_plausible_money_token token = false := by
  have hne : plausClean token ≠ [] := by
    intro he
    rw [he] at hd
    simp at hd
  have hdne : (plausClean token).filter isDigitC ≠ [] := by
    intro he
    rw [he] at hd
    simp at hd
  simp only [is_plausible_money_token, hrp, hidr, hsuf, hdot, hcom]
  rw [if_neg hne, if_neg hdne]
  by_cases h12 : 12 < ((plausClean token).filter isDigitC).length
  · simp [h12]
  · simp [h12, hd]

/-- C6 witness: a bare ten-digit reference number is rejected. -/
theorem c6_reference_rejected_witness :
    is_plausible_money_token (pystr ("1234567890")) = false :=
  c6_reference_rejected (pystr ("1234567890")) rfl rfl rfl rfl rfl (by decide)

/-- C7: `extract_receipt_data` returns a null receipt exactly when it
requests manual confirmation. -/
theorem c7_receipt_iff_manual (ocr_input : OCRInput) (out : OCRResult)
    (h : extract_receipt_data ocr_input = .ok out) :
    out.receipt = none ↔ out.needs_manual_total_confirmation = true := by
  simp only [extract_receipt_data] at h
  split at h
  · simp at h
  · split at h
    · injection h with h2
      rw [← h2]
      simp
    · injection h with h2
      rw [← h2]
      simp

def c7Input : OCRInput := OCRInput.ofString (pystr (""))

def c7Out : OCRResult := (extract_receipt_data c7Input).toOption.getD ⟨[], none, true, []⟩

/-- C7 witness: the equivalence instantiated at a concrete input. -/
theorem c7_receipt_iff_manual_witness :
    extract_receipt_data c7Input = .ok c7Out ∧
    (c7Out.receipt = none ↔ c7Out.needs_manual_total_confirmation = true) :=
  ⟨rfl, c7_receipt_iff_manual c7Input c7Out rfl⟩

/-- C9 (code-bug evidence): `parse_amount_token "nank"` reaches
`int(round(float("nan") * 1000))`, and `round` of `nan` raises — the
embedded function returns the exception marker, contradicting the
documented no-raise contract. -/
theorem c9_nan_token_raises : parse_amount_token (pystr ("nank")) = .error () := rfl

/-- C2 (amended): a short (at most two normalized lines), low-density
input is answered with manual confirmation and a null receipt provided
the extracted total is fallback-derived, absent, or below 1000 — the
extra condition the noise gate actually requires. -/
theorem c2_short_low_density (ocr_input : OCRInput) (topt : Option Int) (fb : Bool)
    (ht : extract_total (normalize_lines ocr_input)
        (detect_bank_transaction (normalize_lines ocr_input)) = .ok (topt, fb))
    (hshort : (normalize_lines ocr_input).length ≤ 2)
    (_hdens : weakTextDensity (joinWith 32 (normalize_lines ocr_input)) = true)
    (hcond : fb = true ∨ topt = none ∨ ∃ t, topt = some t ∧ t < 1000) :
    extract_receipt_data ocr_input =
      .ok ⟨joinWith 10 (normalize_lines ocr_input), none, true, noisyReply⟩ := by
  have hnoisy : is_noisy (normalize_lines ocr_input) topt fb = true :=
    is_noisy_true_of hshort hcond
  simp only [extract_receipt_data]
  rw [ht]
  exact if_pos hnoisy

def c2Cex : OCRInput :=
  OCRInput.ofLines [pystr ("total 50000 !!!!!!!!!!!!!!!!!!!!!!!!!!!!")]

def c2CexOut : OCRResult := (extract_receipt_data c2Cex).toOption.getD ⟨[], none, true, []⟩

/-- C2 counterexample: a one-line input of density below 0.45 whose total
is keyword-anchored (`usedFallbackTotal = false`) produces a structured
receipt with `needsManualConfirmation = false`, refuting the claim as
stated. -/
theorem c2_short_low_density_counterexample :
    (normalize_lines c2Cex).length ≤ 2 ∧
    weakTextDensity (joinWith 32 (normalize_lines c2Cex)) = true ∧
    extract_receipt_data c2Cex = .ok c2CexOut ∧
    c2CexOut.needs_manual_total_confirmation = false ∧
    c2CexOut.receipt.isSome = true :=
  ⟨by decide, rfl, rfl, rfl, rfl⟩

def c2Wit : OCRInput := OCRInput.ofLines [pystr ("?????"), pystr ("50000 ///////////////")]

/-- C2 witness: a two-line, low-density input whose total comes from the
fallback scan is answered with manual confirmation and a null receipt. -/
theorem c2_short_low_density_witness :
    extract_total (normalize_lines c2Wit) (detect_bank_transaction (normalize_lines c2Wit)) =
      .ok (some 50000, true) ∧
    (normalize_lines c2Wit).length ≤ 2 ∧
    weakTextDensity (joinWith 32 (normalize_lines c2Wit)) = true ∧
    extract_receipt_data c2Wit =
      .ok ⟨joinWith 10 (normalize_lines c2Wit), none, true, noisyReply⟩ :=
  ⟨rfl, by decide, rfl,
    c2_short_low_density c2Wit (some 50000) true rfl (by decide) rfl (Or.inl rfl)⟩

/-- C3 counterexample: `parse_amount_token "-5jt"` returns the negative
value -5000000, refuting unconditional non-negativity. -/
theorem c3_amount_nonneg_counterexample :
    parse_amount_token (pystr ("-5jt")) = .ok (some (-5000000)) ∧ (-5000000 : Int) < 0 :=
  ⟨rfl, by decide⟩

theorem not_mem45_tnum {token : PyStr} (hm : ¬ 45 ∈ token) :
    ¬ 45 ∈ ((trimSuffix (amountCleaned token)).2.map
        (fun c => if c == 44 then 46 else c)) := by
  intro hmem
  rcases List.mem_map.mp hmem with ⟨c, hc, he⟩
  have hc45 : c = 45 := by
    by_cases h44 : c = 44
    · rw [h44] at he
      simp at he
    · simp only [beq_iff_eq, h44, if_false] at he
      exact he
  rw [hc45] at hc
  have h1 := mem_of_mem_trimSuffix hc
  unfold amountCleaned at h1
  have h2 := List.mem_of_mem_filter h1
  have h3 := mem_of_mem_deleteSub h2
  have h4 := mem_of_mem_deleteSub h3
  have h5 := mem45_of_mem_lowerStr h4
  exact hm (mem_of_mem_stripList h5)

theorem amountScale_nan_raises (suffix : PyStr) :
    pyRoundToInt (amountScale suffix PyFloat.nan) = .error () := by
  unfold amountScale
  split
  · rfl
  · split <;> rfl

theorem amountScale_inf_raises (suffix : PyStr) (b : Bool) :
    pyRoundToInt (amountScale suffix (PyFloat.inf b)) = .error () := by
  unfold amountScale
  split
  · rfl
  · split <;> rfl

theorem amountScale_val_mantissa (suffix : PyStr) (m e : Int) :
    ∃ e2, amountScale suffix (PyFloat.val m e) = PyFloat.val m e2 := by
  unfold amountScale
  split
  · exact ⟨e + 3, rfl⟩
  · split
    · exact ⟨e + 6, rfl⟩
    · exact ⟨e, rfl⟩

/-- C3 (amended): a successfully normalized token that contains no minus
sign yields a non-negative amount; with a minus sign the value can be
negative (see the counterexample). -/
theorem c3_amount_nonneg (token : PyStr) (n : Int)
    (h : parse_amount_token token = .ok (some n)) (hm : ¬ 45 ∈ token) : 0 ≤ n := by
  unfold parse_amount_token at h
  split at h
  · simp at h
  · split at h
    · simp at h
    · split at h
      · -- no-suffix branch: the value is a cast natural number
        split at h
        · simp at h
        · injection h with h2
          injection h2 with h3
          rw [← h3]
          exact Int.ofNat_nonneg _
      · -- suffix branch: float parse, scale, round
        split at h
        · simp at h
        · rename_i f hf
          split at h
          · simp at h
          · rename_i n2 hn2
            injection h with h2
            injection h2 with h3
            rw [← h3]
            cases f with
            | nan => rw [amountScale_nan_raises] at hn2; exact absurd hn2 (by simp)
            | inf b => rw [amountScale_inf_raises] at hn2; exact absurd hn2 (by simp)
            | val m e =>
              have hm0 : 0 ≤ m := pyFloatOfString_val_nonneg (not_mem45_tnum hm) hf
              rcases amountScale_val_mantissa ((trimSuffix (amountCleaned token)).1) m e
                with ⟨e2, hsc⟩
              rw [hsc] at hn2
              exact pyRoundToInt_nonneg hm0 hn2

/-- C3 witness: the amended statement instantiated at `2.5jt`. -/
theorem c3_amount_nonneg_witness :
    parse_amount_token (pystr ("2.5jt")) = .ok (some 2500000) ∧
    ¬ 45 ∈ pystr ("2.5jt") ∧ (0 : Int) ≤ 2500000 :=
  ⟨rfl, by decide, c3_amount_nonneg (pystr ("2.5jt")) 2500000 rfl (by decide)⟩

/-- C10: whenever `extract_receipt_data` returns a non-null receipt, the
total lies between 1000 and 2000000000: candidates are filtered to
`100 ≤ v ≤ 2_000_000_000` and the noise gate enforces the lower bound
1000. -/
theorem c10_total_bounds (ocr_input : OCRInput) (out : OCRResult) (r : ReceiptExtraction)
    (h : extract_receipt_data ocr_input = .ok out) (hr : out.receipt = some r) :
    1000 ≤ r.total ∧ r.total ≤ 2000000000 := by
  simp only [extract_receipt_data] at h
  split at h
  · simp at h
  · rename_i tf htf
    obtain ⟨topt, fb⟩ := tf
    split at h
    · injection h with h2
      rw [← h2] at hr
      simp at hr
    · rename_i hnoisy
      rw [Bool.not_eq_true] at hnoisy
      injection h with h2
      rw [← h2] at hr
      rw [Option.some.injEq] at hr
      rcases is_noisy_false_total hnoisy with ⟨t, ht1, ht2⟩
      have ht1b : topt = some t := ht1
      rw [ht1b] at htf
      have hup := extract_total_upper htf
      have hrt : r.total = totalOrZero topt := by rw [← hr]
      have htot : totalOrZero topt = t := by rw [ht1b]; rfl
      rw [hrt, htot]
      exact ⟨ht2, hup⟩

/-! character-level lemmas for the idempotency of `normalize_category` (C8) -/

theorem isSpaceC_iff {c : Nat} :
    isSpaceC c = true ↔ (c = 32 ∨ c = 9 ∨ c = 10 ∨ c = 13 ∨ c = 11 ∨ c = 12) := by
  simp only [isSpaceC, Bool.or_eq_true, beq_iff_eq]
  tauto

theorem toLowerC_toLowerC (c : Nat) : toLowerC (toLowerC c) = toLowerC c := by
  simp only [toLowerC, isUpperC, Bool.and_eq_true, decide_eq_true_eq]
  split_ifs <;> omega

theorem toLowerC_toUpperC (c : Nat) : toLowerC (toUpperC c) = toLowerC c := by
  simp only [toLowerC, toUpperC, isUpperC, isLowerC, Bool.and_eq_true, decide_eq_true_eq]
  split_ifs <;> omega

theorem isSpaceC_toLowerC (c : Nat) : isSpaceC (toLowerC c) = isSpaceC c := by
  rw [Bool.eq_iff_iff, isSpaceC_iff, isSpaceC_iff]
  simp only [toLowerC, isUpperC, Bool.and_eq_true, decide_eq_true_eq]
  split_ifs with h
  · omega
  · exact Iff.rfl

theorem lowerStr_lowerStr (s : PyStr) : lowerStr (lowerStr s) = lowerStr s := by
  simp only [lowerStr, List.map_map]
  exact List.map_congr_left (fun c _ => toLowerC_toLowerC c)

theorem lowerStr_pyTitleAux (s : PyStr) :
    ∀ b, lowerStr (pyTitleAux b s) = lowerStr s := by
  induction s with
  | nil => intro b; rfl
  | cons c rest ih =>
    intro b
    simp only [pyTitleAux, lowerStr, List.map_cons]
    rw [show List.map toLowerC (pyTitleAux (isAlphaC c) rest) =
        List.map toLowerC rest from ih (isAlphaC c)]
    by_cases ha : isAlphaC c
    · cases b
      · simp [ha, toLowerC_toUpperC]
      · simp [ha, toLowerC_toLowerC]
    · simp [ha]

/-! whitespace-structure lemmas -/

theorem dropWhile_head_false {p : Nat → Bool} {s : PyStr} :
    ∀ x, (s.dropWhile p).head? = some x → p x = false := by
  induction s with
  | nil => intro x hx; simp at hx
  | cons c rest ih =>
    intro x hx
    by_cases hc : p c
    · rw [List.dropWhile_cons, if_pos hc] at hx
      exact ih x hx
    · rw [List.dropWhile_cons, if_neg hc] at hx
      injection hx with hx2
      rw [← hx2]
      exact Bool.not_eq_true _ ▸ hc

theorem dropWhile_eq_self_of_head {p : Nat → Bool} {s : PyStr}
    (h : ∀ x, s.head? = some x → p x = false) : s.dropWhile p = s := by
  cases s with
  | nil => rfl
  | cons c rest =>
    rw [List.dropWhile_cons, if_neg]
    rw [h c rfl]
    simp

theorem dropWhile_dropWhile {p : Nat → Bool} (s : PyStr) :
    (s.dropWhile p).dropWhile p = s.dropWhile p :=
  dropWhile_eq_self_of_head dropWhile_head_false

theorem dropWhile_isSuffix (p : Nat → Bool) : ∀ (s : PyStr), s.dropWhile p <:+ s := by
  intro s
  induction s with
  | nil => exact List.suffix_refl _
  | cons c rest ih =>
    by_cases hc : p c
    · rw [List.dropWhile_cons, if_pos hc]
      rcases ih with ⟨t, ht⟩
      exact ⟨c :: t, by rw [List.cons_append, ht]⟩
    · rw [List.dropWhile_cons, if_neg hc]

theorem isPrefix_of_reverse_isSuffix {u w : PyStr} (h : w <:+ u.reverse) :
    w.reverse <+: u := by
  rcases h with ⟨t, ht⟩
  refine ⟨t.reverse, ?_⟩
  have : u.reverse.reverse = (t ++ w).reverse := by rw [ht]
  rw [List.reverse_reverse, List.reverse_append] at this
  rw [this]

theorem head_of_isPrefix {v u : PyStr} {x : Nat} (h : v <+: u) (hx : v.head? = some x) :
    u.head? = some x := by
  rcases h with ⟨t, ht⟩
  cases v with
  | nil => simp at hx
  | cons a v2 =>
    injection hx with hx2
    rw [← ht, List.cons_append, List.head?_cons, hx2]

theorem stripList_idem (s : PyStr) : stripList (stripList s) = stripList s := by
  unfold stripList
  have hA : (((s.dropWhile isSpaceC).reverse.dropWhile isSpaceC).reverse).dropWhile isSpaceC =
      ((s.dropWhile isSpaceC).reverse.dropWhile isSpaceC).reverse := by
    apply dropWhile_eq_self_of_head
    intro x hx
    have hpre : ((s.dropWhile isSpaceC).reverse.dropWhile isSpaceC).reverse <+:
        s.dropWhile isSpaceC :=
      isPrefix_of_reverse_isSuffix
        (dropWhile_isSuffix isSpaceC ((s.dropWhile isSpaceC).reverse))
    exact dropWhile_head_false x (head_of_isPrefix hpre hx)
  rw [hA, List.reverse_reverse, dropWhile_dropWhile]

/-! commutation of lowering with whitespace normalisation -/

theorem dropWhile_lowerStr (s : PyStr) :
    (lowerStr s).dropWhile isSpaceC = lowerStr (s.dropWhile isSpaceC) := by
  induction s with
  | nil => rfl
  | cons c rest ih =>
    simp only [lowerStr, List.map_cons, List.dropWhile_cons, isSpaceC_toLowerC]
    by_cases hc : isSpaceC c
    · rw [if_pos hc, if_pos hc]
      exact ih
    · rw [if_neg hc, if_neg hc]
      rfl

theorem stripList_lowerStr (s : PyStr) : stripList (lowerStr s) = lowerStr (stripList s) := by
  unfold stripList
  rw [dropWhile_lowerStr]
  rw [show (lowerStr (s.dropWhile isSpaceC)).reverse = lowerStr ((s.dropWhile isSpaceC).reverse)
    from (List.map_reverse _ _).symm]
  rw [dropWhile_lowerStr]
  exact (List.map_reverse _ _).symm

theorem toLowerC_32 : toLowerC 32 = 32 := rfl

theorem collapseWSAux_lowerStr (s : PyStr) :
    ∀ b, collapseWSAux b (lowerStr s) = lowerStr (collapseWSAux b s) := by
  induction s with
  | nil => intro b; rfl
  | cons c rest ih =>
    intro b
    show collapseWSAux b (toLowerC c :: lowerStr rest) = lowerStr (collapseWSAux b (c :: rest))
    have ihm : ∀ b2, collapseWSAux b2 (List.map toLowerC rest) =
        List.map toLowerC (collapseWSAux b2 rest) := fun b2 => ih b2
    by_cases hc : isSpaceC c
    · have hc2 : isSpaceC (toLowerC c) = true := by rw [isSpaceC_toLowerC]; exact hc
      cases b
      · simp [collapseWSAux, hc, hc2, ihm, lowerStr, toLowerC_32]
      · simp [collapseWSAux, hc, hc2, ihm, ih]
    · have hc2 : isSpaceC (toLowerC c) = false := by
        rw [isSpaceC_toLowerC]
        exact Bool.not_eq_true _ ▸ hc
      simp [collapseWSAux, hc, hc2, ihm, lowerStr]

/-! flatness: the invariant of whitespace-collapsed strings -/

def noTwoWS (a b : Nat) : Prop := ¬(isSpaceC a = true ∧ isSpaceC b = true)

def FlatOK (s : PyStr) : Prop :=
  (∀ c ∈ s, isSpaceC c = true → c = 32) ∧ List.Chain' noTwoWS s

theorem flatOK_nil : FlatOK [] := ⟨by simp, List.chain'_nil⟩

theorem flatOK_cons_inv {c : Nat} {rest : PyStr} (h : FlatOK (c :: rest)) : FlatOK rest :=
  ⟨fun d hd => h.1 d (List.mem_cons_of_mem c hd), (List.chain'_cons'.mp h.2).2⟩

theorem collapseWSAux_true_head {s : PyStr} :
    ∀ x, (collapseWSAux true s).head? = some x → isSpaceC x = false := by
  induction s with
  | nil => intro x hx; simp [collapseWSAux] at hx
  | cons c rest ih =>
    intro x hx
    by_cases hc : isSpaceC c
    · simp only [collapseWSAux, if_pos hc, if_pos rfl] at hx
      exact ih x hx
    · simp only [collapseWSAux, if_neg hc, List.head?_cons] at hx
      injection hx with hx2
      rw [← hx2]
      exact Bool.not_eq_true _ ▸ hc

theorem flatOK_collapseWSAux (s : PyStr) : ∀ b, FlatOK (collapseWSAux b s) := by
  induction s with
  | nil => intro b; exact flatOK_nil
  | cons c rest ih =>
    intro b
    by_cases hc : isSpaceC c
    · cases b
      · simp only [collapseWSAux, if_pos hc, if_neg Bool.false_ne_true]
        constructor
        · intro d hd _
          rcases List.mem_cons.mp hd with hd1 | hd1
          · exact hd1
          · exact (ih true).1 d hd1 (by assumption)
        · rw [List.chain'_cons']
          refine ⟨?_, (ih true).2⟩
          intro y hy
          intro hcontra
          have := collapseWSAux_true_head y (Option.mem_def.mp hy)
          rw [this] at hcontra
          exact absurd hcontra.2 (by simp)
      · simp only [collapseWSAux, if_pos hc, if_pos rfl]
        exact ih true
    · simp only [collapseWSAux, if_neg hc]
      constructor
      · intro d hd hws
        rcases List.mem_cons.mp hd with hd1 | hd1
        · rw [hd1] at hws
          exact absurd hws hc
        · exact (ih false).1 d hd1 hws
      · rw [List.chain'_cons']
        refine ⟨?_, (ih false).2⟩
        intro y _ hcontra
        exact absurd hcontra.1 hc

theorem collapseWSAux_eq_self {s : PyStr} (hf : FlatOK s) :
    ∀ b, (b = false ∨ ∀ x, s.head? = some x → isSpaceC x = false) →
      collapseWSAux b s = s := by
  induction s with
  | nil => intro b _; rfl
  | cons c rest ih =>
    intro b hb
    have hfr : FlatOK rest := flatOK_cons_inv hf
    by_cases hc : isSpaceC c
    · have hc32 : c = 32 := hf.1 c (List.mem_cons_self c rest) hc
      have hbf : b = false := by
        rcases hb with hb1 | hb1
        · exact hb1
        · exact absurd hc (by rw [hb1 c rfl]; simp)
      rw [hbf]
      simp only [collapseWSAux, if_pos hc, if_neg Bool.false_ne_true]
      have hrest : collapseWSAux true rest = rest := by
        apply ih hfr
        right
        intro x hx
        have hhead := (List.chain'_cons'.mp hf.2).1 x (Option.mem_def.mpr hx)
        unfold noTwoWS at hhead
        by_cases hws : isSpaceC x = true
        · exact absurd ⟨hc, hws⟩ hhead
        · exact Bool.not_eq_true _ ▸ hws
      rw [hrest, hc32]
    · simp only [collapseWSAux, if_neg hc]
      rw [ih hfr false (Or.inl rfl)]

theorem flatOK_dropWhile {p : Nat → Bool} {s : PyStr} (hf : FlatOK s) :
    FlatOK (s.dropWhile p) := by
  induction s with
  | nil => exact flatOK_nil
  | cons c rest ih =>
    by_cases hc : p c
    · rw [List.dropWhile_cons, if_pos hc]
      exact ih (flatOK_cons_inv hf)
    · rw [List.dropWhile_cons, if_neg hc]
      exact hf

theorem flatOK_reverse {s : PyStr} (hf : FlatOK s) : FlatOK s.reverse := by
  constructor
  · intro c hc
    exact hf.1 c (List.mem_reverse.mp hc)
  · rw [List.chain'_reverse]
    exact hf.2.imp (fun a b hab => fun hcontra => hab ⟨hcontra.2, hcontra.1⟩)

theorem flatOK_stripList {s : PyStr} (hf : FlatOK s) : FlatOK (stripList s) := by
  unfold stripList
  exact flatOK_reverse (flatOK_dropWhile (flatOK_reverse (flatOK_dropWhile hf)))

theorem flatOK_lowerStr {s : PyStr} (hf : FlatOK s) : FlatOK (lowerStr s) := by
  constructor
  · intro c hc hws
    rcases List.mem_map.mp hc with ⟨a, ha, hae⟩
    rw [← hae] at hws ⊢
    rw [isSpaceC_toLowerC] at hws
    rw [hf.1 a ha hws]
    rfl
  · unfold lowerStr
    rw [List.chain'_map]
    exact hf.2.imp (fun a b hab => fun hcontra => by
      rw [isSpaceC_toLowerC, isSpaceC_toLowerC] at hcontra
      exact hab hcontra)

/-! the key lemma: `cleanName` is unchanged by title-casing its output -/

theorem cleanName_pyTitle (x : PyStr) :
    cleanName (pyTitle (cleanName x)) = cleanName x := by
  have hlow : lowerStr (stripList (collapseWS x)) = cleanName x := rfl
  have hcx : lowerStr (cleanName x) = cleanName x := by
    unfold cleanName
    exact lowerStr_lowerStr _
  have hstep1 : cleanName (pyTitle (cleanName x)) =
      stripList (collapseWS (lowerStr (pyTitle (cleanName x)))) := by
    unfold cleanName collapseWS
    rw [collapseWSAux_lowerStr, stripList_lowerStr]
  have hstep2 : lowerStr (pyTitle (cleanName x)) = cleanName x := by
    unfold pyTitle
    rw [lowerStr_pyTitleAux]
    exact hcx
  rw [hstep1, hstep2]
  have hflat : FlatOK (cleanName x) := by
    unfold cleanName
    exact flatOK_lowerStr (flatOK_stripList (flatOK_collapseWSAux x false))
  have hcol : collapseWS (cleanName x) = cleanName x :=
    collapseWSAux_eq_self hflat false (Or.inl rfl)
  rw [hcol]
  unfold cleanName
  rw [stripList_lowerStr, stripList_idem]

/-! C8 assembly -/

theorem canonical_fixed :
    ∀ k ∈ categoryKeywordTable.map (fun p => p.1), normalize_category k = k := by decide

/-- C8: `normalize_category` is idempotent. -/
theorem c8_normalize_category_idem (name : PyStr) :
    normalize_category (normalize_category name) = normalize_category name := by
  by_cases h0 : cleanName name = []
  · have hval : normalize_category name = pystr ("Lainnya") := by
      unfold normalize_category
      rw [if_pos h0]
    rw [hval]
    decide
  · cases hf : findCanonical (cleanName name) with
    | some k =>
      have hval : normalize_category name = k := by
        unfold normalize_category
        rw [if_neg h0, hf]
      rw [hval]
      exact canonical_fixed k (List.mem_of_find?_eq_some hf)
    | none =>
      have hval : normalize_category name = pyTitle (cleanName name) := by
        unfold normalize_category
        rw [if_neg h0, hf]
      rw [hval]
      have hcn : cleanName (pyTitle (cleanName name)) = cleanName name :=
        cleanName_pyTitle name
      unfold normalize_category
      rw [hcn, if_neg h0, hf]

def c10Inp : OCRInput :=
  OCRInput.ofLines [pystr ("WARUNG MAKAN SEDERHANA"), pystr ("nasi goreng 20000"),
    pystr ("total 50000")]

def c10Out : OCRResult := (extract_receipt_data c10Inp).toOption.getD ⟨[], none, true, []⟩

def c10Rec : ReceiptExtraction := c10Out.receipt.getD ⟨[], none, 0, [], false, false⟩

/-- C10 witness: the bounds instantiated at a concrete receipt. -/
theorem c10_total_bounds_witness :
    extract_receipt_data c10Inp = .ok c10Out ∧ c10Out.receipt = some c10Rec ∧
    1000 ≤ c10Rec.total ∧ c10Rec.total ≤ 2000000000 :=
  ⟨rfl, rfl, (c10_total_bounds c10Inp c10Out c10Rec rfl rfl).1,
    (c10_total_bounds c10Inp c10Out c10Rec rfl rfl).2⟩

end ExpenseBot
